import Mathlib

/-!
Verification development for `new/lib/helpers.py`: a shallow embedding of
the line reassembler (`TerminalLineBuffer`), the logging configuration
(`setup_logging`, `find_file_log_handler`) and the command executor
(`execute`, both passthrough and non-passthrough modes), together with
theorems settling the specification's claims.

Modelling conventions:
- bytes are `Nat` values below 256; Python `bytes` objects are `List Nat`;
- decoded text is a `List Nat` of Unicode code points;
- `monotonic()` readings are natural numbers; in the executor model the
  clock starts at 0 when the deadline is computed, each one-byte read takes
  one time unit, and a `gap` parameter is the time that elapses between the
  deadline computation and the first loop-condition check;
- Python exceptions become explicit result constructors.
-/

namespace Helpers

/-- Strict UTF-8 decoding of a byte string into code points, as Python's
`bytes.decode("utf-8")`: `none` on invalid input (truncated sequences,
stray continuation bytes, overlong forms, surrogates, values above
U+10FFFF), where Python raises `UnicodeDecodeError`. -/
def utf8Decode (l : List Nat) : Option (List Nat) :=
  match l with
  | [] => some []
  | b :: rest =>
    if b < 0x80 then (utf8Decode rest).map (fun cs => b :: cs)
    else if 0xC2 ≤ b ∧ b ≤ 0xDF then
      match rest with
      | b2 :: r =>
        if 0x80 ≤ b2 ∧ b2 ≤ 0xBF then
          (utf8Decode r).map (fun cs => ((b - 0xC0) * 0x40 + (b2 - 0x80)) :: cs)
        else none
      | [] => none
    else if 0xE0 ≤ b ∧ b ≤ 0xEF then
      match rest with
      | b2 :: b3 :: r =>
        if ((if b = 0xE0 then 0xA0 else 0x80) ≤ b2 ∧
              b2 ≤ (if b = 0xED then 0x9F else 0xBF)) ∧
            (0x80 ≤ b3 ∧ b3 ≤ 0xBF) then
          (utf8Decode r).map
            (fun cs => ((b - 0xE0) * 0x1000 + (b2 - 0x80) * 0x40 + (b3 - 0x80)) :: cs)
        else none
      | _ => none
    else if 0xF0 ≤ b ∧ b ≤ 0xF4 then
      match rest with
      | b2 :: b3 :: b4 :: r =>
        if ((if b = 0xF0 then 0x90 else 0x80) ≤ b2 ∧
              b2 ≤ (if b = 0xF4 then 0x8F else 0xBF)) ∧
            (0x80 ≤ b3 ∧ b3 ≤ 0xBF) ∧ (0x80 ≤ b4 ∧ b4 ≤ 0xBF) then
          (utf8Decode r).map
            (fun cs =>
              ((b - 0xF0) * 0x40000 + (b2 - 0x80) * 0x1000 +
                (b3 - 0x80) * 0x40 + (b4 - 0x80)) :: cs)
        else none
      | _ => none
    else none

/-- Python `str.replace` for the call `line.replace("\r\n", "\n")` in
`TerminalLineBuffer.get_line`: left-to-right replacement of CR LF pairs
by LF. -/
def replaceCRLF : List Nat → List Nat
  | 13 :: 10 :: rest => 10 :: replaceCRLF rest
  | c :: rest => c :: replaceCRLF rest
  | [] => []

/-- Matcher for the parenthesised group of the compiled regex in
`TerminalLineBuffer.__init__`, applied to the characters that follow an
ESC (0x1B): returns the remaining characters after a match, `none` when
the group does not match at this position.  The first alternative is the
character class from `@` to `Z` joined with backslash to underscore
(0x40 to 0x5A, 0x5C to 0x5F); the second alternative is a CSI sequence:
an opening square bracket, then parameter bytes (0x30 to 0x3F, starred),
then intermediate bytes (0x20 to 0x2F, starred), then one final byte
(0x40 to 0x7E).  The three CSI ranges are pairwise disjoint, so the
greedy scan needs no backtracking and equals the regex engine's search. -/
def matchEscSeq (l : List Nat) : Option (List Nat) :=
  match l with
  | [] => none
  | c :: rest =>
    if (0x40 ≤ c ∧ c ≤ 0x5A) ∨ (0x5C ≤ c ∧ c ≤ 0x5F) then some rest
    else if c = 0x5B then
      let r1 := rest.dropWhile (fun d => 0x30 ≤ d ∧ d ≤ 0x3F)
      let r2 := r1.dropWhile (fun d => 0x20 ≤ d ∧ d ≤ 0x2F)
      match r2 with
      | d :: r3 => if 0x40 ≤ d ∧ d ≤ 0x7E then some r3 else none
      | [] => none
    else none

/-- Fuelled implementation of the regex substitution: each step either
finishes or consumes at least one character (`matchEscSeq_length` bounds
the matched remainder), so any fuel of at least the list's length never
runs out and the `0, l => l` branch is unreachable from `stripControl`. -/
def stripControlFuel : Nat → List Nat → List Nat
  | _, [] => []
  | 0, l => l
  | fuel + 1, c :: rest =>
    if c = 27 then
      match matchEscSeq rest with
      | some r => stripControlFuel fuel r
      | none => c :: stripControlFuel fuel rest
    else if c = 13 then stripControlFuel fuel rest
    else c :: stripControlFuel fuel rest

/-- Regex substitution `self.control_sequences_regex.sub("", line)` for the
pattern matching either ESC followed by the `matchEscSeq` group, or a bare
CR (0x0D): scan left to right; at an ESC drop the whole sequence when the
group matches (keeping the ESC when it does not); drop every bare CR; keep
every other character. -/
def stripControl (l : List Nat) : List Nat :=
  stripControlFuel l.length l

/-- Post-decode processing of `get_line`: `line.replace("\r\n", "\n")`
followed by the regex substitution. -/
def cleanLine (l : List Nat) : List Nat :=
  stripControl (replaceCRLF l)

/-- State of a `TerminalLineBuffer`: `line_buffer` starts empty;
`last_value` is only annotated in the class body, never assigned by
`__init__`, so it is `none` until the first `feed` (reading it before that
raises `AttributeError`). -/
structure TerminalLineBuffer where
  line_buffer : List Nat
  last_value : Option (List Nat)
  deriving Repr, DecidableEq

/-- Constructor `TerminalLineBuffer()`. -/
def TerminalLineBuffer.init : TerminalLineBuffer :=
  { line_buffer := [], last_value := none }

/-- Method `feed(value)`: record the value as most recent and append it to
the line buffer. -/
def TerminalLineBuffer.feed (b : TerminalLineBuffer) (value : List Nat) :
    TerminalLineBuffer :=
  { line_buffer := b.line_buffer ++ value, last_value := some value }

/-- Method `is_complete()`, that is `self.last_value == b"\n"`; the `none`
result models the `AttributeError` raised when `last_value` was never
assigned. -/
def TerminalLineBuffer.is_complete (b : TerminalLineBuffer) : Option Bool :=
  b.last_value.map (fun v => decide (v = [10]))

/-- Method `get_line()`: decode the buffer as UTF-8 (raising on invalid
bytes, modelled as `none`), clear the buffer, collapse CR LF to LF, strip
control sequences; returns the cleaned line and the new state. -/
def TerminalLineBuffer.get_line (b : TerminalLineBuffer) :
    Option (List Nat × TerminalLineBuffer) :=
  (utf8Decode b.line_buffer).map
    (fun line => (cleanLine line, { b with line_buffer := [] }))

/-- ASCII whitespace recognised by Python's `str.rstrip()` (the messages
logged here are decoded terminal output, for which these are the relevant
whitespace code points). -/
def isPySpace (c : Nat) : Bool :=
  c = 32 ∨ c = 9 ∨ c = 10 ∨ c = 11 ∨ c = 12 ∨ c = 13

/-- Python `message.rstrip()`: remove trailing whitespace. -/
def pyRstrip (l : List Nat) : List Nat :=
  (l.reverse.dropWhile isPySpace).reverse

/-- Message of the record built by `create_stdout_log_record`: the line
with trailing whitespace stripped, with the optional passthrough prefix
prepended (logger name, level and the placeholder source location are not
needed by any claim). -/
def create_stdout_log_record (message : List Nat) (pfx : Option (List Nat)) :
    List Nat :=
  let m := pyRstrip message
  match pfx with
  | some p => p ++ m
  | none => m

/-- A handler attached to the root logger, as built by `setup_logging`:
either a `StreamHandler` (target 1 = stdout, 2 = stderr) or a
`RotatingFileHandler` carrying the `log_file` path recorded on it. -/
inductive LogHandler where
  | streamHandler (target : Nat) (level : Nat) (hasLessThanFilter : Bool)
  | rotatingFileHandler (log_file : List Char) (maxBytes : Nat)
      (backupCount : Nat) (level : Nat)
  deriving Repr, DecidableEq

/-- Root logger state: its level and its handler list. -/
structure RootLogger where
  level : Nat
  handlers : List LogHandler
  deriving Repr, DecidableEq

/-- The root logger before any `setup_logging` call: Python's default
WARNING (30) level and no handlers. -/
def freshRootLogger : RootLogger :=
  { level := 30, handlers := [] }

/-- Function `setup_logging(name)`: set the root level to INFO (20) and
append a stdout handler at INFO with a `LessThanLevelFilter(WARNING)`, a
stderr handler at WARNING (30), and a `RotatingFileHandler` on
`os.path.join(project_dir, "build", name + ".log")` (the join appends a
single separator after the absolute, non-slash-terminated `project_dir`)
rotating at 10 MiB with 5 backups, at INFO, remembering its path in
`log_file`. -/
def setup_logging (projectDir : List Char) (name : List Char)
    (lg : RootLogger) : RootLogger :=
  let log_file := projectDir ++ ("/build/".toList ++ name ++ ".log".toList)
  { level := 20,
    handlers := lg.handlers ++
      [LogHandler.streamHandler 1 20 true,
       LogHandler.streamHandler 2 30 false,
       LogHandler.rotatingFileHandler log_file (1048576 * 10) 5 20] }

/-- Function `find_file_log_handler()`: scan the root logger's handlers
and return the first `RotatingFileHandler`, if any. -/
def find_file_log_handler : List LogHandler → Option LogHandler
  | [] => none
  | h :: rest =>
    match h with
    | LogHandler.rotatingFileHandler _ _ _ _ => some h
    | _ => find_file_log_handler rest

/-- Result of an `execute` call.  `timeoutKilled` is the
`subprocess.TimeoutExpired` raised at line 57 after `process.kill()`;
`waitTimeout` is the one `process.wait(timeout)` raises in non-passthrough
mode (no kill); `processFailure` is `ProcessException` carrying the
command, the exit code and, in non-passthrough mode only, the decoded
captured output; `exitCodeResult` and `captured` are the two normal
returns; `decodeFailure` is a `UnicodeDecodeError`. -/
inductive ExecOutcome where
  | timeoutKilled (command : List Nat) (timeout : Nat)
  | waitTimeout (command : List Nat) (timeout : Nat)
  | processFailure (command : List Nat) (exitCode : Int)
      (output : Option (List Nat))
  | exitCodeResult (code : Int)
  | captured (text : List Nat)
  | decodeFailure
  deriving Repr, DecidableEq

/-- Child process model: it exits at instant `exitTime` (on the same
monotonic clock that starts at 0 at the deadline computation) with code
`exitCode`, and its combined stdout and stderr is `outputBytes`. -/
structure ChildProc where
  exitTime : Nat
  exitCode : Int
  outputBytes : List Nat
  deriving Repr, DecidableEq

/-- Call `process.poll()` at instant `t`: the exit code once the process
has exited, `None` while it is running. -/
def ChildProc.poll (p : ChildProc) (t : Nat) : Option Int :=
  if p.exitTime ≤ t then some p.exitCode else none

/-- State carried through the passthrough read loop: the clock, the line
buffer, the unread output bytes, the messages of the records already
emitted to the file handler, and the instants at which a read was
issued. -/
structure LoopState where
  t : Nat
  buffer : TerminalLineBuffer
  remaining : List Nat
  records : List (List Nat)
  readTimes : List Nat
  deriving Repr, DecidableEq

/-- How the passthrough read loop ended: a `UnicodeDecodeError` escaping
from `get_line`, or a normal exit of the `while`. -/
inductive LoopExit where
  | decodeError (st : LoopState)
  | finished (st : LoopState)
  deriving Repr, DecidableEq

/-- The passthrough read loop (lines 39 to 48):
`while process.poll() is None and (deadline is None or deadline < monotonic())`,
with `deadline` equal to the timeout value because the clock starts at 0
when the deadline is computed.  Each iteration reads one byte (the empty
bytes object once the stream is exhausted), echoes it to the terminal (a
side effect outside the model), feeds it to the buffer when a file handler
is configured, and emits a record whenever the buffer reports a complete
line.  One iteration advances the clock by one unit; `fuel` only bounds
the recursion and `none` means it ran out. -/
def ptLoop (p : ChildProc) (timeout : Option Nat) (hasHandler : Bool)
    (pfx : Option (List Nat)) : Nat → LoopState → Option LoopExit
  | 0, _ => none
  | fuel + 1, st =>
    if (p.poll st.t).isNone &&
        (match timeout with | none => true | some d => decide (d < st.t)) then
      let value := st.remaining.take 1
      let st1 : LoopState :=
        { st with remaining := st.remaining.drop 1,
                  readTimes := st.readTimes ++ [st.t] }
      if hasHandler then
        let buffer := st1.buffer.feed value
        if buffer.is_complete = some true then
          match buffer.get_line with
          | none => some (LoopExit.decodeError { st1 with buffer := buffer })
          | some (line, buffer2) =>
            ptLoop p timeout hasHandler pfx fuel
              { st1 with t := st1.t + 1, buffer := buffer2,
                         records := st1.records ++
                           [create_stdout_log_record line pfx] }
        else
          ptLoop p timeout hasHandler pfx fuel
            { st1 with t := st1.t + 1, buffer := buffer }
      else
        ptLoop p timeout hasHandler pfx fuel { st1 with t := st1.t + 1 }
    else some (LoopExit.finished st)

/-- The flush after the read loop (lines 50 to 53): when a file handler is
configured, pop the remaining partial line and append one more record if
the cleaned line is non-empty; `none` models the `UnicodeDecodeError` that
`get_line` can raise here. -/
def flushRecords (hasHandler : Bool) (pfx : Option (List Nat))
    (st : LoopState) : Option (List (List Nat)) :=
  if hasHandler then
    match st.buffer.get_line with
    | none => none
    | some (line, _) =>
      some (if line ≠ [] then
              st.records ++ [create_stdout_log_record line pfx]
            else st.records)
  else some st.records

/-- Everything `execute` does in passthrough mode after the read loop
(lines 50 to 70): flush the remaining partial line to the file handler if
non-empty; then, if a deadline was set that is still at or past the
current instant (`deadline >= monotonic()`) while the process has not
exited, kill it and raise `TimeoutExpired`; otherwise raise
`ProcessException` on a non-zero exit code (without captured output) and
return the exit code on zero. -/
def finishPassthrough (command : List Nat) (p : ChildProc)
    (timeout : Option Nat) (hasHandler : Bool) (pfx : Option (List Nat))
    (st : LoopState) : ExecOutcome × List (List Nat) :=
  match flushRecords hasHandler pfx st with
  | none => (ExecOutcome.decodeFailure, st.records)
  | some records =>
    match timeout with
    | some dl =>
      if st.t ≤ dl ∧ p.poll st.t = none then
        (ExecOutcome.timeoutKilled command dl, records)
      else if p.exitCode ≠ 0 then
        (ExecOutcome.processFailure command p.exitCode none, records)
      else (ExecOutcome.exitCodeResult p.exitCode, records)
    | none =>
      if p.exitCode ≠ 0 then
        (ExecOutcome.processFailure command p.exitCode none, records)
      else (ExecOutcome.exitCodeResult p.exitCode, records)

/-- Aggregate result of a passthrough `execute` call: its outcome, the
instants at which reads were issued, and the record messages sent to the
file handler. -/
structure PtResult where
  outcome : ExecOutcome
  readTimes : List Nat
  records : List (List Nat)
  deriving Repr, DecidableEq

/-- Function `execute` in passthrough mode: compute the deadline (the
clock starts at 0 there, so the deadline equals the timeout), run the read
loop from instant `gap` (the time that elapses between the deadline
computation and the first loop-condition check) on a fresh
`TerminalLineBuffer`, then finish as `finishPassthrough`.  `hasHandler`
says whether `find_file_log_handler()` found a rotating file handler. -/
def executePassthrough (command : List Nat) (p : ChildProc)
    (timeout : Option Nat) (gap : Nat) (hasHandler : Bool)
    (pfx : Option (List Nat)) (fuel : Nat) : Option PtResult :=
  match ptLoop p timeout hasHandler pfx fuel
      { t := gap, buffer := TerminalLineBuffer.init,
        remaining := p.outputBytes, records := [], readTimes := [] } with
  | none => none
  | some (LoopExit.decodeError st) =>
    some { outcome := ExecOutcome.decodeFailure, readTimes := st.readTimes,
           records := st.records }
  | some (LoopExit.finished st) =>
    some { outcome := (finishPassthrough command p timeout hasHandler pfx st).1,
           readTimes := st.readTimes,
           records := (finishPassthrough command p timeout hasHandler pfx st).2 }

/-- Function `execute` in non-passthrough mode (lines 59 to 73):
`process.wait(timeout)` raises `TimeoutExpired` (without killing) when the
process has not exited within the timeout; then a non-zero exit code
raises `ProcessException` carrying the command, the exit code and the
decoded captured output, and a zero exit code returns the decoded
captured output. -/
def executeNonPassthrough (command : List Nat) (p : ChildProc)
    (timeout : Option Nat) : ExecOutcome :=
  if (match timeout with
      | some dl => decide (dl < p.exitTime)
      | none => false) then
    ExecOutcome.waitTimeout command (timeout.getD 0)
  else if p.exitCode ≠ 0 then
    match utf8Decode p.outputBytes with
    | none => ExecOutcome.decodeFailure
    | some txt => ExecOutcome.processFailure command p.exitCode (some txt)
  else
    match utf8Decode p.outputBytes with
    | none => ExecOutcome.decodeFailure
    | some txt => ExecOutcome.captured txt

/-- Outcome discriminator used to say a run did not raise `TimeoutExpired`
after a kill. -/
def ExecOutcome.isTimeoutKilled : ExecOutcome → Bool
  | ExecOutcome.timeoutKilled _ _ => true
  | _ => false

/-- Outcome discriminator used to say a run did not raise
`UnicodeDecodeError`. -/
def ExecOutcome.isDecodeFailure : ExecOutcome → Bool
  | ExecOutcome.decodeFailure => true
  | _ => false

theorem matchEscSeq_length {l r : List Nat} (h : matchEscSeq l = some r) :
    r.length ≤ l.length := by
  unfold matchEscSeq at h
  rcases l with _ | ⟨c, rest⟩
  · simp at h
  · simp only [] at h
    split at h
    · injection h with h'
      subst h'
      simp
    · split at h
      · have h1 : (rest.dropWhile (fun d => decide (0x30 ≤ d ∧ d ≤ 0x3F))).Sublist rest :=
          List.dropWhile_sublist _
        have h2 : ((rest.dropWhile (fun d => decide (0x30 ≤ d ∧ d ≤ 0x3F))).dropWhile
            (fun d => decide (0x20 ≤ d ∧ d ≤ 0x2F))).Sublist
            (rest.dropWhile (fun d => decide (0x30 ≤ d ∧ d ≤ 0x3F))) :=
          List.dropWhile_sublist _
        have h3 := (h2.trans h1).length_le
        split at h
        · split at h
          · injection h with h'
            subst h'
            rename_i heq _
            rw [heq] at h3
            simp at h3
            simp
            omega
          · simp at h
        · simp at h
      · simp at h

theorem replaceCRLF_of_not_mem {l : List Nat} (h : 13 ∉ l) :
    replaceCRLF l = l := by
  induction l with
  | nil => rfl
  | cons c rest ih =>
    have hc : c ≠ 13 := fun e => h (e ▸ List.mem_cons_self c rest)
    have hr : 13 ∉ rest := fun m => h (List.mem_cons_of_mem _ m)
    rw [replaceCRLF.eq_def]
    split
    · rename_i heq
      injection heq with h1 _
      exact absurd h1 hc
    · rename_i c' rest' heq
      injection heq with h1 h2
      subst h1
      subst h2
      rw [ih hr]
    · rename_i heq
      exact absurd heq (List.cons_ne_nil c rest)

theorem stripControlFuel_of_not_mem :
    ∀ (fuel : Nat) {l : List Nat}, l.length ≤ fuel → 27 ∉ l → 13 ∉ l →
      stripControlFuel fuel l = l := by
  intro fuel
  induction fuel with
  | zero =>
    intro l hlen _ _
    rcases l with _ | ⟨c, rest⟩
    · rfl
    · simp at hlen
  | succ fuel ih =>
    intro l hlen h27 h13
    rcases l with _ | ⟨c, rest⟩
    · rfl
    · have hc27 : c ≠ 27 := fun e => h27 (e ▸ List.mem_cons_self c rest)
      have hc13 : c ≠ 13 := fun e => h13 (e ▸ List.mem_cons_self c rest)
      have hr27 : 27 ∉ rest := fun m => h27 (List.mem_cons_of_mem _ m)
      have hr13 : 13 ∉ rest := fun m => h13 (List.mem_cons_of_mem _ m)
      have hlen' : rest.length ≤ fuel := by simp at hlen ; omega
      simp only [stripControlFuel, if_neg hc27, if_neg hc13]
      rw [ih hlen' hr27 hr13]

theorem stripControl_of_not_mem {l : List Nat} (h27 : 27 ∉ l)
    (h13 : 13 ∉ l) : stripControl l = l :=
  stripControlFuel_of_not_mem l.length (Nat.le_refl _) h27 h13

/-- C7: the line-cleaning transformation of `get_line` is the identity on
already-clean input: a line containing no ESC (0x1B, the opening byte of
every ANSI escape sequence the regex matches) and no carriage return
(0x0D) passes through `replace` and the regex substitution unchanged. -/
theorem cleanLine_id_of_clean (l : List Nat) (h27 : 27 ∉ l) (h13 : 13 ∉ l) :
    cleanLine l = l := by
  unfold cleanLine
  rw [replaceCRLF_of_not_mem h13, stripControl_of_not_mem h27 h13]

theorem cleanLine_id_of_clean_witness :
    27 ∉ [104, 105] ∧ 13 ∉ [104, 105] ∧ cleanLine [104, 105] = [104, 105] :=
  ⟨by decide, by decide, cleanLine_id_of_clean [104, 105] (by decide) (by decide)⟩

/-- C6: after `feed`-ing any single byte `b` to any buffer state,
`is_complete()` answers (it never fails once a byte has been fed), and it
answers true exactly when that byte is the newline byte 0x0A, false for
every other byte. -/
theorem is_complete_iff_newline (st : TerminalLineBuffer) (b : Nat) :
    ((st.feed [b]).is_complete = some true ↔ b = 10) ∧
    ((st.feed [b]).is_complete = some false ↔ b ≠ 10) := by
  by_cases hb : b = 10
  · subst hb
    constructor
    · simp [TerminalLineBuffer.feed, TerminalLineBuffer.is_complete]
    · simp [TerminalLineBuffer.feed, TerminalLineBuffer.is_complete]
  · constructor
    · simp [TerminalLineBuffer.feed, TerminalLineBuffer.is_complete, hb]
    · simp [TerminalLineBuffer.feed, TerminalLineBuffer.is_complete, hb]

/-- C5 counterexample: feeding the bytes of `"abc\n"` one at a time makes
`is_complete()` true, but `get_line()` then returns `"abc\n"` (code points
97, 98, 99, 10) — the trailing newline is not stripped — and not `"abc"`
as the claim states. -/
theorem get_line_abc_counterexample :
    ((((TerminalLineBuffer.init.feed [97]).feed [98]).feed [99]).feed
        [10]).is_complete = some true ∧
    (((((TerminalLineBuffer.init.feed [97]).feed [98]).feed [99]).feed
        [10]).get_line).map Prod.fst = some [97, 98, 99, 10] ∧
    ([97, 98, 99, 10] : List Nat) ≠ [97, 98, 99] := by
  decide

/-- C5 as amended: feeding `"abc\n"` one byte at a time yields exactly one
completed line (`is_complete()` is false after each of the first three
bytes and true only after the newline) equal to `"abc\n"`, and feeding
`"ab\x1B[31mred\x1B[0m\n"` the same way yields the line `"abred\n"`: the
ANSI colour sequences are stripped but the trailing newline is kept. -/
theorem get_line_keeps_trailing_newline :
    (TerminalLineBuffer.init.feed [97]).is_complete = some false ∧
    ((TerminalLineBuffer.init.feed [97]).feed [98]).is_complete
      = some false ∧
    (((TerminalLineBuffer.init.feed [97]).feed [98]).feed [99]).is_complete
      = some false ∧
    ((((TerminalLineBuffer.init.feed [97]).feed [98]).feed [99]).feed
        [10]).is_complete = some true ∧
    (((((TerminalLineBuffer.init.feed [97]).feed [98]).feed [99]).feed
        [10]).get_line).map Prod.fst = some [97, 98, 99, 10] ∧
    Option.map Prod.fst
        ((((((((((((((((TerminalLineBuffer.init.feed [97]).feed [98]).feed
          [27]).feed [91]).feed [51]).feed [49]).feed [109]).feed
          [114]).feed [101]).feed [100]).feed [27]).feed [91]).feed
          [48]).feed [109]).feed [10]).get_line)
      = some [97, 98, 114, 101, 100, 10] := by
  decide

/-- C9: whatever the prior operation sequence, `get_line()` leaves the
internal byte buffer empty, so the next fed value starts a fresh line:
the state it returns has an empty `line_buffer`, and feeding `v` to it
makes the buffer exactly `v`. -/
theorem get_line_clears_buffer (b : TerminalLineBuffer) (line : List Nat)
    (b' : TerminalLineBuffer) (h : b.get_line = some (line, b')) :
    b'.line_buffer = [] ∧ ∀ v : List Nat, (b'.feed v).line_buffer = v := by
  unfold TerminalLineBuffer.get_line at h
  cases hd : utf8Decode b.line_buffer with
  | none => rw [hd] at h ; simp at h
  | some l =>
    rw [hd] at h
    injection h with h'
    have hb : b' = { b with line_buffer := [] } := (congrArg Prod.snd h').symm
    subst hb
    exact ⟨rfl, fun v => by simp [TerminalLineBuffer.feed]⟩

theorem get_line_clears_buffer_witness :
    (TerminalLineBuffer.init.feed [97]).get_line
      = some ([97], { line_buffer := [], last_value := some [97] }) ∧
    ({ line_buffer := [], last_value := some [97] } :
        TerminalLineBuffer).line_buffer = [] :=
  ⟨by decide,
   (get_line_clears_buffer (TerminalLineBuffer.init.feed [97]) [97]
      { line_buffer := [], last_value := some [97] } (by decide)).1⟩

/-- C10: on a freshly constructed buffer, before any `feed`, the
`last_value` attribute is unassigned, so `is_complete()` fails with
`AttributeError` (modelled as `none`) — in particular it does not return
false — while after any `feed` call it always answers. -/
theorem is_complete_needs_feed :
    TerminalLineBuffer.init.is_complete = none ∧
    TerminalLineBuffer.init.is_complete ≠ some false ∧
    ∀ (st : TerminalLineBuffer) (v : List Nat),
      ((st.feed v).is_complete).isSome = true := by
  refine ⟨rfl, by decide, fun st v => ?_⟩
  simp [TerminalLineBuffer.feed, TerminalLineBuffer.is_complete]

/-- C8: on a root logger with no handlers (the state before any
`setup_logging` call) `find_file_log_handler` returns none, and after
`setup_logging("x")` it returns the rotating file handler, whose recorded
path is the project directory joined with `build/x.log` — in particular it
ends in `build/x.log`. -/
theorem find_file_log_handler_setup (projectDir : List Char) :
    find_file_log_handler freshRootLogger.handlers = none ∧
    find_file_log_handler
        (setup_logging projectDir "x".toList freshRootLogger).handlers
      = some (LogHandler.rotatingFileHandler
          (projectDir ++ "/build/x.log".toList) (1048576 * 10) 5 20) ∧
    "build/x.log".toList <:+ projectDir ++ "/build/x.log".toList := by
  refine ⟨rfl, ?_, ?_⟩
  · simp [setup_logging, freshRootLogger, find_file_log_handler]
  · exact ⟨projectDir ++ ['/'], by simp⟩

/-- C1 (refutation at the failing input): with a timeout of 1 and a
process that runs until instant 4, a run in which two time units elapse
between the deadline computation and the first loop check issues reads at
instants 2 and 3 — both strictly after the deadline 1 — because the loop
guard `deadline < monotonic()` keeps the loop running exactly when the
deadline has already been reached, the reverse of the claimed check. -/
theorem passthrough_reads_after_deadline :
    executePassthrough [99]
        { exitTime := 4, exitCode := 0, outputBytes := [97, 97, 97, 97, 97] }
        (some 1) 2 false none 10
      = some { outcome := ExecOutcome.exitCodeResult 0, readTimes := [2, 3],
               records := [] } ∧
    ∀ t ∈ ([2, 3] : List Nat), 1 < t := by
  decide

/-- C2 (refutation at the failing input): with a timeout of 10 and a
process that exits at instant 1 — well before the deadline — the loop
guard `deadline < monotonic()` is false at the first check, the loop exits
without reading, and the kill check `deadline >= monotonic()` (true
because the deadline has NOT been reached) kills the process and raises
`TimeoutExpired`, though the claim says a process exiting before the
deadline is neither killed nor failed. -/
theorem passthrough_kills_process_exiting_before_deadline :
    executePassthrough [99] { exitTime := 1, exitCode := 0, outputBytes := [] }
        (some 10) 0 false none 5
      = some { outcome := ExecOutcome.timeoutKilled [99] 10, readTimes := [],
               records := [] } ∧
    (1 : Nat) < 10 := by
  decide

theorem finishPassthrough_outcome (command : List Nat) (p : ChildProc)
    (timeout : Option Nat) (hasHandler : Bool) (pfx : Option (List Nat))
    (st : LoopState)
    (hnt : ((finishPassthrough command p timeout hasHandler pfx
        st).1).isTimeoutKilled = false)
    (hnd : ((finishPassthrough command p timeout hasHandler pfx
        st).1).isDecodeFailure = false) :
    (p.exitCode ≠ 0 →
      (finishPassthrough command p timeout hasHandler pfx st).1
        = ExecOutcome.processFailure command p.exitCode none) ∧
    (p.exitCode = 0 →
      (finishPassthrough command p timeout hasHandler pfx st).1
        = ExecOutcome.exitCodeResult 0) := by
  cases hfl : flushRecords hasHandler pfx st with
  | none =>
    have hout : (finishPassthrough command p timeout hasHandler pfx st).1
        = ExecOutcome.decodeFailure := by
      simp [finishPassthrough, hfl]
    rw [hout] at hnd
    simp [ExecOutcome.isDecodeFailure] at hnd
  | some records =>
    cases timeout with
    | none =>
      constructor
      · intro he
        simp [finishPassthrough, hfl, he]
      · intro he
        simp [finishPassthrough, hfl, he]
    | some dl =>
      by_cases hk : st.t ≤ dl ∧ p.poll st.t = none
      · have hout : (finishPassthrough command p (some dl) hasHandler pfx
            st).1 = ExecOutcome.timeoutKilled command dl := by
          simp [finishPassthrough, hfl, hk]
        rw [hout] at hnt
        simp [ExecOutcome.isTimeoutKilled] at hnt
      · constructor
        · intro he
          simp [finishPassthrough, hfl, hk, he]
        · intro he
          simp [finishPassthrough, hfl, hk, he]

/-- C3 as amended: in passthrough mode, when the call raises neither the
timeout failure nor a decode failure, it returns the exit code only when
that code is zero; on a non-zero exit it raises `ProcessFailure` carrying
the command and the exit code (with no captured output).  `ProcessFailure`
is therefore raised in passthrough mode as well, contrary to the claim. -/
theorem executePassthrough_no_timeout_outcome (command : List Nat)
    (p : ChildProc) (timeout : Option Nat) (gap : Nat) (hasHandler : Bool)
    (pfx : Option (List Nat)) (fuel : Nat) (r : PtResult)
    (hr : executePassthrough command p timeout gap hasHandler pfx fuel
      = some r)
    (hnt : r.outcome.isTimeoutKilled = false)
    (hnd : r.outcome.isDecodeFailure = false) :
    (p.exitCode ≠ 0 →
      r.outcome = ExecOutcome.processFailure command p.exitCode none) ∧
    (p.exitCode = 0 → r.outcome = ExecOutcome.exitCodeResult 0) := by
  unfold executePassthrough at hr
  cases hloop : ptLoop p timeout hasHandler pfx fuel
      { t := gap, buffer := TerminalLineBuffer.init,
        remaining := p.outputBytes, records := [], readTimes := [] } with
  | none =>
    rw [hloop] at hr
    exact absurd hr (by simp)
  | some ex =>
    rw [hloop] at hr
    cases ex with
    | decodeError st =>
      injection hr with hr'
      have : r.outcome = ExecOutcome.decodeFailure := by rw [← hr']
      rw [this] at hnd
      simp [ExecOutcome.isDecodeFailure] at hnd
    | finished st =>
      injection hr with hr'
      have hro : r.outcome
          = (finishPassthrough command p timeout hasHandler pfx st).1 := by
        rw [← hr']
      rw [hro] at hnt hnd ⊢
      exact finishPassthrough_outcome command p timeout hasHandler pfx st
        hnt hnd

theorem executePassthrough_no_timeout_outcome_witness :
    ((7 : Int) ≠ 0 →
      ({ outcome := ExecOutcome.processFailure [99] 7 none,
         readTimes := [0, 1], records := [] } : PtResult).outcome
        = ExecOutcome.processFailure [99] 7 none) ∧
    ((7 : Int) = 0 →
      ({ outcome := ExecOutcome.processFailure [99] 7 none,
         readTimes := [0, 1], records := [] } : PtResult).outcome
        = ExecOutcome.exitCodeResult 0) :=
  executePassthrough_no_timeout_outcome [99]
    { exitTime := 2, exitCode := 7, outputBytes := [97, 10] } none 0 false
    none 10
    { outcome := ExecOutcome.processFailure [99] 7 none,
      readTimes := [0, 1], records := [] }
    (by decide) (by decide) (by decide)

/-- C3 counterexample: a passthrough run without a timeout whose child
exits with code 7 raises `ProcessFailure` (the `ProcessException` of line
67) rather than returning the exit code 7, refuting both "returns the
child's exit code whether it is zero or non-zero" and "ProcessFailure is
raised only in non-passthrough mode". -/
theorem executePassthrough_nonzero_raises_counterexample :
    executePassthrough [99]
        { exitTime := 2, exitCode := 7, outputBytes := [97, 10] }
        none 0 false none 10
      = some { outcome := ExecOutcome.processFailure [99] 7 none,
               readTimes := [0, 1], records := [] } ∧
    ExecOutcome.processFailure [99] 7 none
      ≠ ExecOutcome.exitCodeResult 7 := by
  decide

/-- C4: in non-passthrough mode, when the wait does not time out and the
captured combined output decodes as UTF-8 to `txt`, `execute` raises
`ProcessFailure` carrying the command, the exit code and the captured
output exactly when the exit code is non-zero, and returns the decoded
captured output on a zero exit. -/
theorem executeNonPassthrough_spec (command : List Nat) (p : ChildProc)
    (timeout : Option Nat) (txt : List Nat)
    (hwait : ∀ dl, timeout = some dl → p.exitTime ≤ dl)
    (hdec : utf8Decode p.outputBytes = some txt) :
    (executeNonPassthrough command p timeout
        = ExecOutcome.processFailure command p.exitCode (some txt)
      ↔ p.exitCode ≠ 0) ∧
    (p.exitCode = 0 →
      executeNonPassthrough command p timeout = ExecOutcome.captured txt) := by
  cases timeout with
  | none =>
    refine ⟨?_, fun he => by simp [executeNonPassthrough, hdec, he]⟩
    by_cases he : p.exitCode ≠ 0
    · simp [executeNonPassthrough, hdec, he]
    · simp only [ne_eq, not_not] at he
      simp [executeNonPassthrough, hdec, he]
  | some dl =>
    have hle : p.exitTime ≤ dl := hwait dl rfl
    have hlt : ¬ dl < p.exitTime := by omega
    refine ⟨?_, fun he => by simp [executeNonPassthrough, hdec, he, hlt]⟩
    by_cases he : p.exitCode ≠ 0
    · simp [executeNonPassthrough, hdec, he, hlt]
    · simp only [ne_eq, not_not] at he
      simp [executeNonPassthrough, hdec, he, hlt]

theorem executeNonPassthrough_spec_witness :
    executeNonPassthrough [99]
        { exitTime := 1, exitCode := 7, outputBytes := [104, 105] } none
      = ExecOutcome.processFailure [99] 7 (some [104, 105]) ∧
    executeNonPassthrough [99]
        { exitTime := 1, exitCode := 0, outputBytes := [104, 105] } (some 5)
      = ExecOutcome.captured [104, 105] :=
  ⟨(executeNonPassthrough_spec [99]
      { exitTime := 1, exitCode := 7, outputBytes := [104, 105] } none
      [104, 105] (fun _ h => nomatch h) (by decide)).1.mpr (by decide),
   (executeNonPassthrough_spec [99]
      { exitTime := 1, exitCode := 0, outputBytes := [104, 105] } (some 5)
      [104, 105] (fun dl h => by injection h with h2 ; subst h2 ; decide)
      (by decide)).2 rfl⟩

end Helpers
